import Mathlib

/-!
# Verification of the OPC UA mirroring core (`src/opcua_server/server.py`)

Shallow embedding of the address-space mirroring and change-propagation
subsystem: `SubHandler.datachange_notification`, `UaObject.__init__`,
`UaObject.write`.  The external protocol layer (the `opcua` library) is out of
scope of the repository and is modelled from the spec's interface section
(§6): browse names, node classes, child/property/variable enumeration, the
subscription API, and `set_value`.

Python dictionaries (the `self.nodes` index, an object's attribute `__dict__`,
and the server's node-value store) are modelled as association lists with an
insert that replaces an existing binding in place, matching dict semantics.
-/

namespace OpcUaSim

/-- Values carried by OPC UA nodes; an opaque payload for the embedding. -/
inductive UAVal : Type
| intVal : Int → UAVal
| strVal : String → UAVal
deriving DecidableEq

/-- Modelled from the spec: §6 `getNodeClass(node) -> enum{Object, Variable,
Property, …}` — the node classes of the external protocol layer. -/
inductive NodeClass : Type
| Object : NodeClass
| Variable : NodeClass
| Property : NodeClass
| Method : NodeClass
| Other : NodeClass
deriving DecidableEq

/-- Modelled from the spec: §6 `getBrowseName(node) -> {namespaceIndex, name}`.
Field names follow the library's `QualifiedName` (`.Name` is the string part
read by the source at lines 31, 44 and 48). -/
structure QualifiedName : Type where
  NamespaceIndex : Nat
  Name : String
deriving DecidableEq

/-- A child node reference as the source handles it: identity (`nodeId`),
browse name and node class, all queried from the external server. -/
structure ChildNode : Type where
  nodeId : Nat
  browseName : QualifiedName
  nodeClass : NodeClass
deriving DecidableEq

/-- The node passed to `UaObject.__init__` (`ua_node`), with its direct
children as the external layer would enumerate them. -/
structure UANode : Type where
  nodeId : Nat
  browseName : QualifiedName
  nodeClass : NodeClass
  children : List ChildNode
deriving DecidableEq

def UANode.get_browse_name (n : UANode) : QualifiedName := n.browseName

def ChildNode.get_browse_name (c : ChildNode) : QualifiedName := c.browseName

def ChildNode.get_node_class (c : ChildNode) : NodeClass := c.nodeClass

/-- `ua_node.get_children()` (line 47). -/
def UANode.get_children (n : UANode) : List ChildNode := n.children

/-- Modelled from the spec: §6 `getProperties(node)` — the Property-class
children (line 52 `ua_node.get_properties()`). -/
def UANode.get_properties (n : UANode) : List ChildNode :=
  n.children.filter (fun c => c.nodeClass = NodeClass.Property)

/-- Modelled from the spec: §6 `getVariables(node)` — the Variable-class
children (line 53 `ua_node.get_variables()`). -/
def UANode.get_variables (n : UANode) : List ChildNode :=
  n.children.filter (fun c => c.nodeClass = NodeClass.Variable)

/-! ## Python dictionaries as association lists -/

/-- Python-dict insertion: replace an existing binding for the key in place,
otherwise append at the end (insertion order preserved). -/
def dictInsert {κ β : Type} [DecidableEq κ] : List (κ × β) → κ → β → List (κ × β)
| [], k, v => [(k, v)]
| p :: rest, k, v => if p.1 = k then (k, v) :: rest else p :: dictInsert rest k v

/-- Python-dict lookup (`d[k]` / `getattr`): first (= unique) binding. -/
def dictLookup {κ β : Type} [DecidableEq κ] : List (κ × β) → κ → Option β
| [], _ => none
| p :: rest, k => if p.1 = k then some p.2 else dictLookup rest k

theorem dictLookup_dictInsert_self {κ β : Type} [DecidableEq κ]
    (d : List (κ × β)) (k : κ) (v : β) :
    dictLookup (dictInsert d k v) k = some v := by
  induction d with
  | nil => simp [dictInsert, dictLookup]
  | cons p rest ih =>
      by_cases h : p.1 = k
      · simp [dictInsert, h, dictLookup]
      · simp [dictInsert, h, dictLookup, ih]

theorem dictLookup_dictInsert_ne {κ β : Type} [DecidableEq κ]
    (d : List (κ × β)) (k k' : κ) (v : β) (hne : k' ≠ k) :
    dictLookup (dictInsert d k v) k' = dictLookup d k' := by
  induction d with
  | nil =>
      simp only [dictInsert, dictLookup]
      rw [if_neg (fun hk => hne hk.symm)]
  | cons p rest ih =>
      by_cases h : p.1 = k
      · simp only [dictInsert, if_pos h, dictLookup]
        rw [if_neg (fun hk => hne hk.symm), if_neg (fun hp => hne (hp.symm.trans h))]
      · simp only [dictInsert, if_neg h, dictLookup]
        by_cases h' : p.1 = k'
        · rw [if_pos h', if_pos h']
        · rw [if_neg h', if_neg h', ih]

/-- The keys of a dict, in insertion order. -/
def dictKeys {κ β : Type} (d : List (κ × β)) : List κ := d.map Prod.fst

theorem mem_dictKeys_dictInsert {κ β : Type} [DecidableEq κ]
    (d : List (κ × β)) (k x : κ) (v : β) :
    x ∈ dictKeys (dictInsert d k v) ↔ x ∈ dictKeys d ∨ x = k := by
  induction d with
  | nil => simp [dictInsert, dictKeys]
  | cons p rest ih =>
      by_cases h : p.1 = k
      · simp only [dictInsert, if_pos h, dictKeys, List.map_cons, List.mem_cons]
        constructor
        · rintro (hx | hx)
          · exact Or.inr hx
          · exact Or.inl (Or.inr hx)
        · rintro ((hx | hx) | hx)
          · exact Or.inl (hx.trans h)
          · exact Or.inr hx
          · exact Or.inl hx
      · simp only [dictInsert, if_neg h, dictKeys, List.map_cons, List.mem_cons] at ih ⊢
        rw [ih]
        tauto

theorem nodup_dictKeys_dictInsert {κ β : Type} [DecidableEq κ]
    (d : List (κ × β)) (k : κ) (v : β) (h : (dictKeys d).Nodup) :
    (dictKeys (dictInsert d k v)).Nodup := by
  induction d with
  | nil => simp [dictInsert, dictKeys]
  | cons p rest ih =>
      simp only [dictKeys, List.map_cons, List.nodup_cons] at h
      by_cases hpk : p.1 = k
      · simp only [dictInsert, if_pos hpk, dictKeys, List.map_cons, List.nodup_cons]
        exact ⟨fun hx => h.1 (by rw [hpk]; exact hx), h.2⟩
      · have h1 : p.1 ∉ dictKeys (dictInsert rest k v) := by
          rw [mem_dictKeys_dictInsert]
          rintro (hx | rfl)
          · exact h.1 hx
          · exact hpk rfl
        simp only [dictInsert, if_neg hpk, dictKeys, List.map_cons, List.nodup_cons]
        exact ⟨fun hx => h1 hx, ih h.2⟩

/-! ## The event-metadata chain `data.monitored_item.Value.Value.Value` -/

/-- The `ua.Variant` layer: `.Value` is the payload. -/
structure UaVariant : Type where
  Value : UAVal
deriving DecidableEq

/-- The `ua.DataValue` layer: `.Value` is the variant, with a source
timestamp as delivered by the notification channel. -/
structure UaDataValue : Type where
  Value : UaVariant
  SourceTimestamp : Int
deriving DecidableEq

/-- The monitored-item record inside a data-change event (`data.monitored_item`). -/
structure MonitoredItemData : Type where
  Value : UaDataValue
deriving DecidableEq

/-- The `data` argument of `datachange_notification`. -/
structure DataChangeEventData : Type where
  monitored_item : MonitoredItemData
deriving DecidableEq

/-- A Python object's attribute store (`__dict__`): field name → value.
`setattr` is `dictInsert` (creates the field if absent), `getattr` is
`dictLookup`. -/
abbrev Attrs : Type := List (String × UAVal)

/-! ## SubHandler (lines 19–32) -/

/-- `SubHandler.datachange_notification(self, node, val, data)` (lines 28–32):
`setattr(self.obj, node.get_browse_name().Name,
data.monitored_item.Value.Value.Value)`.  The handler's only state is the
back-reference to the bound object; the mutation of that object's attribute
store is modelled by returning the updated store.  The `val` parameter is
accepted and ignored, exactly as in the source. -/
def SubHandler.datachange_notification (obj : Attrs) (node : ChildNode)
    (val : UAVal) (data : DataChangeEventData) : Attrs :=
  dictInsert obj node.get_browse_name.Name data.monitored_item.Value.Value.Value

/-- C1: the handler writes the node's browse-name field with the
event-metadata value, untransformed; the raw `val` parameter is ignored; the
field is created if absent (the lookup succeeds for every prior store). -/
theorem datachange_sets_metadata_value (obj : Attrs) (node : ChildNode)
    (v1 v2 : UAVal) (data : DataChangeEventData) :
    dictLookup (SubHandler.datachange_notification obj node v1 data)
        node.get_browse_name.Name
      = some data.monitored_item.Value.Value.Value
    ∧ SubHandler.datachange_notification obj node v1 data
      = SubHandler.datachange_notification obj node v2 data := by
  constructor
  · exact dictLookup_dictInsert_self _ _ _
  · rfl

/-! ## The external server (spec §6), its value store and subscriptions -/

/-- An active data-change subscription on the server: the handle returned by
`create_subscription`, the requested publishing interval in milliseconds, and
the node ids of the monitored items. -/
structure Subscription : Type where
  handle : Nat
  period : Nat
  monitored : List Nat
deriving DecidableEq

/-- Modelled from the spec: the server-side state the core touches — a
node-id → value store (§6 `setValue`), the active subscriptions, and a
fresh-handle counter for subscription and monitored-item handles. -/
structure ServerState : Type where
  values : List (Nat × UAVal)
  subs : List Subscription
  nextHandle : Nat
deriving DecidableEq

/-- `node.set_value(v)` (§6 `setValue(node, value)`): update the server's
value for that node id. -/
def ServerState.set_value (s : ServerState) (nid : Nat) (v : UAVal) : ServerState :=
  { s with values := dictInsert s.values nid v }

/-- Modelled from the spec: §6 `createSubscription(intervalMs, notifier)` —
allocate a fresh-handled subscription with no monitored items yet and return
it (line 57 `opcua_server.create_subscription(500, handler)`). -/
def ServerState.create_subscription (s : ServerState) (period : Nat) :
    Subscription × ServerState :=
  let sub : Subscription := { handle := s.nextHandle, period := period, monitored := [] }
  (sub, { s with subs := s.subs ++ [sub], nextHandle := s.nextHandle + 1 })

/-- Modelled from the spec: §6 `subscribe(handle, sequence<Node>)` — register
the nodes as monitored items of the given subscription and return the
monitored-item handle (line 58 `sub.subscribe_data_change(sub_children)`). -/
def ServerState.subscribe_data_change (s : ServerState) (sub : Subscription)
    (nodes : List ChildNode) : Nat × ServerState :=
  (s.nextHandle,
   { s with
     subs := s.subs.map (fun sb =>
       if sb.handle = sub.handle then
         { sb with monitored := sb.monitored ++ nodes.map ChildNode.nodeId }
       else sb),
     nextHandle := s.nextHandle + 1 })

/-! ## UaObject (lines 35–69) -/

/-- The mirrored object's state, exactly the fields `__init__` assigns on
`self` (lines 42–49): the server reference, the child index `self.nodes`,
and `self.b_name`.  The locals `handler`, `sub` and `handle` of lines 56–58
are not assigned to `self` and so do not appear here. -/
structure UaObject : Type where
  opcua_server : Nat
  nodes : List (String × ChildNode)
  b_name : String
deriving DecidableEq

/-- The child-index loop of lines 47–49:
`for _child in ua_node.get_children(): self.nodes[_child_name.Name] = _child`. -/
def buildNodes (children : List ChildNode) : List (String × ChildNode) :=
  children.foldl (fun d c => dictInsert d c.get_browse_name.Name c) []

/-- `UaObject.__init__(self, opcua_server, ua_node)` (lines 41–58).  The
server is referenced by an opaque id; server-side effects are returned as the
updated `ServerState`.  The subscription and monitored-item handles are bound
to locals and discarded, as in the source. -/
def UaObject.init (opcua_server : Nat) (srv : ServerState) (ua_node : UANode) :
    UaObject × ServerState :=
  let nodes := buildNodes ua_node.get_children
  let b_name := ua_node.get_browse_name.Name
  let sub_children := ua_node.get_properties ++ ua_node.get_variables
  let obj : UaObject := { opcua_server := opcua_server, nodes := nodes, b_name := b_name }
  -- handler = SubHandler(self): pure back-reference, no server effect
  let created := srv.create_subscription 500
  let sub := created.1
  let srv1 := created.2
  -- handle = sub.subscribe_data_change(sub_children): handle discarded
  let subscribed := srv1.subscribe_data_change sub sub_children
  (obj, subscribed.2)

/-- The Python exceptions `UaObject.write` can raise: `KeyError` from
`self.nodes[attr]` and `AttributeError` from `getattr(self, attr)`. -/
inductive PyError : Type
| keyError : String → PyError
| attributeError : String → PyError
deriving DecidableEq

deriving instance DecidableEq for Except

/-- The loop body of the no-argument branch of `write` (lines 62–66):
for each `(k, node)` of `self.nodes.items()`, if
`node.get_node_class() == ua.NodeClass.Variable` then
`node.set_value(getattr(self, k))`. -/
def writeAll (attrs : Attrs) : List (String × ChildNode) → ServerState →
    Except PyError ServerState
| [], srv => Except.ok srv
| (k, node) :: rest, srv =>
    if node.get_node_class = NodeClass.Variable then
      match dictLookup attrs k with
      | none => Except.error (PyError.attributeError k)
      | some v => writeAll attrs rest (srv.set_value node.nodeId v)
    else writeAll attrs rest srv

/-- `UaObject.write(self, attr=None)` (lines 60–69).  The object's attribute
store is passed explicitly; the named branch evaluates `self.nodes[attr]`
first (KeyError), then `getattr(self, attr)` (AttributeError), then calls
`set_value`, as in line 69. -/
def UaObject.write (o : UaObject) (attrs : Attrs) (srv : ServerState)
    (attr : Option String) : Except PyError ServerState :=
  match attr with
  | none => writeAll attrs o.nodes srv
  | some a =>
      match dictLookup o.nodes a with
      | none => Except.error (PyError.keyError a)
      | some node =>
          match dictLookup attrs a with
          | none => Except.error (PyError.attributeError a)
          | some v => Except.ok (srv.set_value node.nodeId v)

/-! ## Generic list helpers -/

/-- Last element of a list, if any. -/
def lastO {α : Type} : List α → Option α
| [] => none
| [a] => some a
| _ :: b :: rest => lastO (b :: rest)

/-- Left-biased choice of options. -/
def orElseO {α : Type} : Option α → Option α → Option α
| some a, _ => some a
| none, b => b

theorem lastO_cons_cons {α : Type} (a b : α) (l : List α) :
    lastO (a :: b :: l) = lastO (b :: l) := rfl

theorem lastO_cons_isSome {α : Type} (a : α) (l : List α) :
    (lastO (a :: l)).isSome := by
  induction l generalizing a with
  | nil => rfl
  | cons b rest ih => exact ih b

theorem orElseO_none {α : Type} (x : Option α) : orElseO x none = x := by
  cases x <;> rfl

/-- Looking a name up after the child-index loop yields the LAST child whose
browse-name string part equals the key (later children overwrite earlier
ones), falling back to the initial dict. -/
theorem dictLookup_foldlInsert (l : List ChildNode) (d : List (String × ChildNode))
    (name : String) :
    dictLookup (List.foldl (fun acc c => dictInsert acc c.get_browse_name.Name c) d l) name
      = orElseO (lastO (l.filter (fun c => c.get_browse_name.Name = name)))
          (dictLookup d name) := by
  induction l generalizing d with
  | nil => rfl
  | cons c rest ih =>
      rw [List.foldl_cons, ih, List.filter_cons]
      by_cases h : c.get_browse_name.Name = name
      · rw [if_pos (by simpa using h)]
        cases hf : rest.filter (fun x => decide (x.get_browse_name.Name = name)) with
        | nil =>
            show orElseO (lastO [])
                (dictLookup (dictInsert d c.get_browse_name.Name c) name)
              = orElseO (lastO [c]) (dictLookup d name)
            rw [h]
            simp [orElseO, lastO, dictLookup_dictInsert_self]
        | cons x xs =>
            rw [lastO_cons_cons c x xs]
            obtain ⟨g, hg⟩ := Option.isSome_iff_exists.mp (lastO_cons_isSome x xs)
            rw [hg]
            rfl
      · rw [if_neg (by simpa using h)]
        rw [dictLookup_dictInsert_ne d c.get_browse_name.Name name c (fun hf => h hf.symm)]

theorem nodup_dictKeys_foldlInsert (l : List ChildNode) (d : List (String × ChildNode))
    (h : (dictKeys d).Nodup) :
    (dictKeys (List.foldl (fun acc c => dictInsert acc c.get_browse_name.Name c) d l)).Nodup := by
  induction l generalizing d with
  | nil => exact h
  | cons c rest ih => exact ih _ (nodup_dictKeys_dictInsert _ _ _ h)

theorem dictLookup_buildNodes (l : List ChildNode) (name : String) :
    dictLookup (buildNodes l) name
      = lastO (l.filter (fun c => c.get_browse_name.Name = name)) := by
  have h := dictLookup_foldlInsert l [] name
  rwa [show dictLookup ([] : List (String × ChildNode)) name = none from rfl,
    orElseO_none] at h

theorem nodup_dictKeys_buildNodes (l : List ChildNode) :
    (dictKeys (buildNodes l)).Nodup :=
  nodup_dictKeys_foldlInsert l [] (by simp [dictKeys])

/-- C9: `self.nodes` is keyed by the browse name's string part alone (the
namespace index plays no role in the key): the lookup finds the
last-enumerated child with that name string — a later child with the same
name string overwrites an earlier one even when the namespace indices differ
— and the index holds at most one entry per name string (its keys are
duplicate-free). -/
theorem nodeIndex_keyed_by_name_last_wins (l : List ChildNode) (name : String) :
    dictLookup (buildNodes l) name
      = lastO (l.filter (fun c => c.get_browse_name.Name = name))
    ∧ (dictKeys (buildNodes l)).Nodup :=
  ⟨dictLookup_buildNodes l name, nodup_dictKeys_buildNodes l⟩

/-! ## The write path -/

/-- C3: `write(name)` for a `name` that is not a key of `self.nodes` raises
`KeyError` from the index lookup `self.nodes[attr]` — the spec's
`UnknownFieldError` — before `set_value` can run, so no server Node is
mutated (the call produces no new server state at all). -/
theorem write_unknown_name_keyError (o : UaObject) (attrs : Attrs)
    (srv : ServerState) (a : String) (h : dictLookup o.nodes a = none) :
    UaObject.write o attrs srv (some a) = Except.error (PyError.keyError a)
    ∧ ∀ s' : ServerState, UaObject.write o attrs srv (some a) ≠ Except.ok s' := by
  have he : UaObject.write o attrs srv (some a)
      = Except.error (PyError.keyError a) := by
    simp [UaObject.write, h]
  exact ⟨he, fun s' hk => by rw [he] at hk; cases hk⟩

theorem write_unknown_name_keyError_witness :
    UaObject.write ⟨0, [], "Device"⟩ [] ⟨[], [], 0⟩ (some "Missing")
      = Except.error (PyError.keyError "Missing") :=
  (write_unknown_name_keyError ⟨0, [], "Device"⟩ [] ⟨[], [], 0⟩ "Missing" (by decide)).1

/-- C10: for a `name` keyed in `self.nodes` (with the local field present),
`write(name)` performs exactly one `set_value` on the Node stored under that
key: the result is the server state with exactly that update, the target
node's value becomes the local field's value, every other server node's
value is unchanged, and the subscriptions are untouched.  The local attribute
store and the index are not written at all (`write` returns only a server
state). -/
theorem write_named_frame (o : UaObject) (attrs : Attrs) (srv : ServerState)
    (a : String) (node : ChildNode) (v : UAVal)
    (hn : dictLookup o.nodes a = some node) (hv : dictLookup attrs a = some v) :
    UaObject.write o attrs srv (some a) = Except.ok (srv.set_value node.nodeId v)
    ∧ dictLookup (srv.set_value node.nodeId v).values node.nodeId = some v
    ∧ (∀ nid : Nat, nid ≠ node.nodeId →
        dictLookup (srv.set_value node.nodeId v).values nid = dictLookup srv.values nid)
    ∧ (srv.set_value node.nodeId v).subs = srv.subs := by
  refine ⟨by simp [UaObject.write, hn, hv], dictLookup_dictInsert_self _ _ _,
    fun nid hnid => dictLookup_dictInsert_ne _ _ _ _ hnid, rfl⟩

theorem write_named_frame_witness :
    UaObject.write ⟨0, [("Intensity", ⟨1, ⟨2, "Intensity"⟩, NodeClass.Variable⟩)], "Device"⟩
        [("Intensity", UAVal.intVal 5)] ⟨[(1, UAVal.intVal 0)], [], 3⟩ (some "Intensity")
      = Except.ok ((⟨[(1, UAVal.intVal 0)], [], 3⟩ : ServerState).set_value 1 (UAVal.intVal 5)) :=
  (write_named_frame ⟨0, [("Intensity", ⟨1, ⟨2, "Intensity"⟩, NodeClass.Variable⟩)], "Device"⟩
    [("Intensity", UAVal.intVal 5)] ⟨[(1, UAVal.intVal 0)], [], 3⟩ "Intensity"
    ⟨1, ⟨2, "Intensity"⟩, NodeClass.Variable⟩ (UAVal.intVal 5) (by decide) (by decide)).1

/-- A Property-class child under the name "Label", for exercising the named
write path on a non-Variable target. -/
def labelNode : ChildNode := ⟨3, ⟨2, "Label"⟩, NodeClass.Property⟩

def objWithLabel : UaObject := ⟨0, [("Label", labelNode)], "Device"⟩

def srvWithLabel : ServerState := ⟨[(3, UAVal.intVal 0)], [], 0⟩

/-- C4 counterexample: `write("Label")` against a Property-class target does
NOT fail — there is no node-class check and no `NotWritableError` in the
named branch — and it DOES write: the call returns normally and the Property
node's server value changes from 0 to 7. -/
theorem write_property_no_error :
    UaObject.write objWithLabel [("Label", UAVal.intVal 7)] srvWithLabel (some "Label")
      = Except.ok (srvWithLabel.set_value 3 (UAVal.intVal 7))
    ∧ dictLookup (srvWithLabel.set_value 3 (UAVal.intVal 7)).values 3 = some (UAVal.intVal 7)
    ∧ dictLookup srvWithLabel.values 3 = some (UAVal.intVal 0) := by decide

/-- C4 amended: `write(name)` whose target Node in the index is of Property
(or any other) class performs no class check: it simply calls `set_value` on
that Node with the local field's value, exactly as for a Variable-class
target. -/
theorem write_named_ignores_node_class (o : UaObject) (attrs : Attrs)
    (srv : ServerState) (a : String) (node : ChildNode) (v : UAVal)
    (hn : dictLookup o.nodes a = some node)
    (hclass : node.get_node_class = NodeClass.Property)
    (hv : dictLookup attrs a = some v) :
    UaObject.write o attrs srv (some a) = Except.ok (srv.set_value node.nodeId v) := by
  simp [UaObject.write, hn, hv]

theorem write_named_ignores_node_class_witness :
    UaObject.write objWithLabel [("Label", UAVal.intVal 7)] srvWithLabel (some "Label")
      = Except.ok (srvWithLabel.set_value 3 (UAVal.intVal 7)) :=
  write_named_ignores_node_class objWithLabel [("Label", UAVal.intVal 7)] srvWithLabel
    "Label" labelNode (UAVal.intVal 7) (by decide) (by decide) (by decide)

/-! ## The constructor -/

theorem map_subscribe_fresh (L : List Subscription) (h0 : Nat) (ids : List Nat)
    (hfresh : ∀ sb ∈ L, sb.handle ≠ h0) :
    L.map (fun sb =>
        if sb.handle = h0 then { sb with monitored := sb.monitored ++ ids } else sb)
      = L := by
  induction L with
  | nil => rfl
  | cons sb rest ih =>
      rw [List.map_cons, if_neg (hfresh sb (List.mem_cons_self sb rest)),
        ih (fun x hx => hfresh x (List.mem_cons_of_mem sb hx))]

/-- As long as the server's pre-existing subscription handles are distinct
from the fresh one it allocates, `__init__` leaves them untouched and appends
exactly one subscription: period 500 ms, monitoring the node ids of
`ua_node.get_properties() + ua_node.get_variables()`. -/
theorem init_subs_eq (sid : Nat) (srv : ServerState) (n : UANode)
    (hfresh : ∀ sb ∈ srv.subs, sb.handle ≠ srv.nextHandle) :
    ((UaObject.init sid srv n).2).subs
      = srv.subs ++ [(⟨srv.nextHandle, 500,
          (n.get_properties ++ n.get_variables).map ChildNode.nodeId⟩ : Subscription)] := by
  have h0 : (UaObject.init sid srv n).2.subs
      = (srv.subs ++ [(⟨srv.nextHandle, 500, []⟩ : Subscription)]).map
          (fun (sb : Subscription) => if sb.handle = srv.nextHandle then
              { sb with monitored :=
                  sb.monitored ++ (n.get_properties ++ n.get_variables).map ChildNode.nodeId }
            else sb) := rfl
  rw [h0, List.map_append, map_subscribe_fresh srv.subs srv.nextHandle _ hfresh]
  simp

/-- A Variable-class node carrying one Property child, for exercising the
constructor on a non-Object node. -/
def varNodeWithChild : UANode :=
  ⟨10, ⟨2, "Intensity"⟩, NodeClass.Variable, [⟨11, ⟨2, "EURange"⟩, NodeClass.Property⟩]⟩

def emptyServer : ServerState := ⟨[], [], 0⟩

/-- C5 counterexample: constructing against a Node of class Variable does not
fail — there is no node-class check and no `BindError` anywhere in
`__init__` — and a subscription IS created and left active: on a server with
no subscriptions, construction returns normally with the child indexed and
exactly one active subscription. -/
theorem bind_variable_node_creates_subscription :
    (UaObject.init 0 emptyServer varNodeWithChild).2.subs
      = [(⟨0, 500, [11]⟩ : Subscription)]
    ∧ emptyServer.subs = []
    ∧ (UaObject.init 0 emptyServer varNodeWithChild).1.nodes
      = [("EURange", ⟨11, ⟨2, "EURange"⟩, NodeClass.Property⟩)] := by decide

/-- C5 amended: the constructor performs no node-class check: on a Node of
class Variable it does not fail, but unconditionally indexes the node's
children and creates one 500 ms data-change subscription over the node's
Property and Variable children. -/
theorem init_no_class_check (sid : Nat) (srv : ServerState) (n : UANode)
    (hclass : n.nodeClass = NodeClass.Variable) :
    (UaObject.init sid srv n).1
        = { opcua_server := sid, nodes := buildNodes n.get_children,
            b_name := n.get_browse_name.Name }
    ∧ ((UaObject.init sid srv n).2).subs.length = srv.subs.length + 1 := by
  constructor
  · rfl
  · have h0 : (UaObject.init sid srv n).2.subs
        = (srv.subs ++ [(⟨srv.nextHandle, 500, []⟩ : Subscription)]).map
            (fun (sb : Subscription) => if sb.handle = srv.nextHandle then
                { sb with monitored :=
                    sb.monitored ++ (n.get_properties ++ n.get_variables).map ChildNode.nodeId }
              else sb) := rfl
    rw [h0, List.length_map, List.length_append]
    rfl

theorem init_no_class_check_witness :
    (UaObject.init 0 emptyServer varNodeWithChild).1
        = { opcua_server := 0, nodes := buildNodes varNodeWithChild.get_children,
            b_name := varNodeWithChild.get_browse_name.Name }
    ∧ ((UaObject.init 0 emptyServer varNodeWithChild).2).subs.length
        = emptyServer.subs.length + 1 :=
  init_no_class_check 0 emptyServer varNodeWithChild (by decide)

/-- An Object-class device node with one Variable child, for the
subscription-handle claims. -/
def deviceNode : UANode :=
  ⟨20, ⟨2, "Device"⟩, NodeClass.Object, [⟨21, ⟨2, "Intensity"⟩, NodeClass.Variable⟩]⟩

def serverHandle99 : ServerState := ⟨[], [], 99⟩

/-- C8 counterexample: the handles returned by subscription creation on the
two servers differ (0 vs 99), yet the constructed mirrored objects are
identical — the handle is bound to a local variable inside `__init__` and no
`subscriptionHandle` state exists on the object. -/
theorem handle_not_retained :
    (emptyServer.create_subscription 500).1.handle
      ≠ (serverHandle99.create_subscription 500).1.handle
    ∧ (UaObject.init 7 emptyServer deviceNode).1
      = (UaObject.init 7 serverHandle99 deviceNode).1 := by decide

/-- C8 amended: the constructor requests the data-change subscription with a
fixed 500 ms sampling interval covering the Property and Variable children
gathered at construction time, but it does not retain the returned handle:
the handle is dropped (the constructed object is the same whatever server
state — and hence whatever handle — the subscription creation produces). -/
theorem init_subscribes_500ms_discards_handle (sid : Nat) (srv : ServerState)
    (n : UANode) (hfresh : ∀ sb ∈ srv.subs, sb.handle ≠ srv.nextHandle) :
    ((UaObject.init sid srv n).2).subs
      = srv.subs ++ [(⟨srv.nextHandle, 500,
          (n.get_properties ++ n.get_variables).map ChildNode.nodeId⟩ : Subscription)]
    ∧ ∀ srv2 : ServerState, (UaObject.init sid srv2 n).1 = (UaObject.init sid srv n).1 :=
  ⟨init_subs_eq sid srv n hfresh, fun _ => rfl⟩

theorem init_subscribes_500ms_discards_handle_witness :
    ((UaObject.init 7 emptyServer deviceNode).2).subs
      = emptyServer.subs ++ [(⟨emptyServer.nextHandle, 500,
          (deviceNode.get_properties ++ deviceNode.get_variables).map
            ChildNode.nodeId⟩ : Subscription)] :=
  (init_subscribes_500ms_discards_handle 7 emptyServer deviceNode (by decide)).1

/-- The no-argument write loop (lines 62–66): with every Variable-entry field
present and the entry node ids pairwise distinct, the loop succeeds; each
Variable entry's server value ends at the local field's value; any node id
outside the Variable entries is untouched; subscriptions are untouched. -/
theorem writeAll_spec (attrs : Attrs) (entries : List (String × ChildNode))
    (srv : ServerState)
    (hfields : ∀ p ∈ entries, p.2.get_node_class = NodeClass.Variable →
      (dictLookup attrs p.1).isSome)
    (hids : (entries.map (fun p => p.2.nodeId)).Nodup) :
    ∃ s' : ServerState, writeAll attrs entries srv = Except.ok s'
      ∧ (∀ p ∈ entries, p.2.get_node_class = NodeClass.Variable →
           dictLookup s'.values p.2.nodeId = dictLookup attrs p.1)
      ∧ (∀ nid : Nat,
           nid ∉ (entries.filter
             (fun p => p.2.get_node_class = NodeClass.Variable)).map
               (fun p => p.2.nodeId) →
           dictLookup s'.values nid = dictLookup srv.values nid)
      ∧ s'.subs = srv.subs := by
  induction entries generalizing srv with
  | nil => exact ⟨srv, rfl, by simp, fun nid _ => rfl, rfl⟩
  | cons e rest ih =>
      obtain ⟨k, node⟩ := e
      rw [List.map_cons, List.nodup_cons] at hids
      by_cases hcls : node.get_node_class = NodeClass.Variable
      · obtain ⟨v, hv⟩ := Option.isSome_iff_exists.mp
          (hfields (k, node) (List.mem_cons_self _ _) hcls)
        obtain ⟨s', hok, hvar, hframe, hsubs⟩ :=
          ih (srv.set_value node.nodeId v)
            (fun p hp hc => hfields p (List.mem_cons_of_mem _ hp) hc) hids.2
        have hnotin : node.nodeId ∉ (rest.filter
            (fun p => p.2.get_node_class = NodeClass.Variable)).map
              (fun p => p.2.nodeId) := by
          intro hx
          obtain ⟨q, hq, hqid⟩ := List.mem_map.mp hx
          exact hids.1 (List.mem_map.mpr ⟨q, (List.mem_filter.mp hq).1, hqid⟩)
        have hfc : (((k, node) :: rest).filter
            (fun p => p.2.get_node_class = NodeClass.Variable))
            = (k, node) :: rest.filter
                (fun p => p.2.get_node_class = NodeClass.Variable) := by
          simp [List.filter_cons, hcls]
        refine ⟨s', ?_, ?_, ?_, hsubs⟩
        · simpa [writeAll, hcls, hv] using hok
        · intro p hp hc
          rcases List.mem_cons.mp hp with rfl | hp'
          · show dictLookup s'.values node.nodeId = dictLookup attrs k
            rw [hframe node.nodeId hnotin, hv]
            exact dictLookup_dictInsert_self _ _ _
          · exact hvar p hp' hc
        · intro nid hnid
          rw [hfc, List.map_cons] at hnid
          have hnid1 : nid ≠ node.nodeId := fun h => hnid (by simp [h])
          have hnid2 : nid ∉ (rest.filter
              (fun p => p.2.get_node_class = NodeClass.Variable)).map
                (fun p => p.2.nodeId) := fun hx => hnid (List.mem_cons_of_mem _ hx)
          rw [hframe nid hnid2]
          exact dictLookup_dictInsert_ne _ _ _ _ hnid1
      · obtain ⟨s', hok, hvar, hframe, hsubs⟩ :=
          ih srv (fun p hp hc => hfields p (List.mem_cons_of_mem _ hp) hc) hids.2
        have hfc : (((k, node) :: rest).filter
            (fun p => p.2.get_node_class = NodeClass.Variable))
            = rest.filter (fun p => p.2.get_node_class = NodeClass.Variable) := by
          simp [List.filter_cons, hcls]
        refine ⟨s', ?_, ?_, ?_, hsubs⟩
        · simpa [writeAll, hcls] using hok
        · intro p hp hc
          rcases List.mem_cons.mp hp with rfl | hp'
          · exact absurd hc hcls
          · exact hvar p hp' hc
        · intro nid hnid
          rw [hfc] at hnid
          exact hframe nid hnid

/-- C2: `write()` with no argument pushes, for every entry of `self.nodes`
whose Node is of class Variable, the local field of the same name to that
Node, and performs no write to any entry of Property (or other non-Variable)
class — under the well-formedness assumptions that every Variable entry has
its local field and that distinct entries reference distinct server nodes. -/
theorem write_noarg_updates_variables (o : UaObject) (attrs : Attrs)
    (srv : ServerState)
    (hfields : ∀ p ∈ o.nodes, p.2.get_node_class = NodeClass.Variable →
      (dictLookup attrs p.1).isSome)
    (hids : (o.nodes.map (fun p => p.2.nodeId)).Nodup) :
    ∃ s' : ServerState, UaObject.write o attrs srv none = Except.ok s'
      ∧ (∀ p ∈ o.nodes, p.2.get_node_class = NodeClass.Variable →
           dictLookup s'.values p.2.nodeId = dictLookup attrs p.1)
      ∧ (∀ p ∈ o.nodes, p.2.get_node_class ≠ NodeClass.Variable →
           dictLookup s'.values p.2.nodeId = dictLookup srv.values p.2.nodeId) := by
  obtain ⟨s', hok, hvar, hframe, _⟩ := writeAll_spec attrs o.nodes srv hfields hids
  refine ⟨s', hok, hvar, ?_⟩
  intro p hp hc
  apply hframe
  intro hx
  obtain ⟨q, hq, hqid⟩ := List.mem_map.mp hx
  have hqm := List.mem_filter.mp hq
  have hqv : q.2.get_node_class = NodeClass.Variable := of_decide_eq_true hqm.2
  have hqp : q = p := List.inj_on_of_nodup_map hids hqm.1 hp hqid
  exact hc (hqp ▸ hqv)

/-- A device object with one Variable child and one Property child, plus the
matching attribute store and server, for the bulk-write scenario. -/
def deviceObj : UaObject := ⟨0,
  [("Intensity", ⟨31, ⟨2, "Intensity"⟩, NodeClass.Variable⟩),
   ("Label", ⟨32, ⟨2, "Label"⟩, NodeClass.Property⟩)], "Device"⟩

def deviceAttrs : Attrs := [("Intensity", UAVal.intVal 42), ("Label", UAVal.strVal "x")]

def deviceSrv : ServerState := ⟨[(31, UAVal.intVal 0), (32, UAVal.intVal 0)], [], 0⟩

theorem write_noarg_updates_variables_witness :
    ∃ s' : ServerState, UaObject.write deviceObj deviceAttrs deviceSrv none = Except.ok s'
      ∧ (∀ p ∈ deviceObj.nodes, p.2.get_node_class = NodeClass.Variable →
           dictLookup s'.values p.2.nodeId = dictLookup deviceAttrs p.1)
      ∧ (∀ p ∈ deviceObj.nodes, p.2.get_node_class ≠ NodeClass.Variable →
           dictLookup s'.values p.2.nodeId = dictLookup deviceSrv.values p.2.nodeId) :=
  write_noarg_updates_variables deviceObj deviceAttrs deviceSrv (by decide) (by decide)

/-- C6: after construction (with fresh server handles and duplicate-free
child node ids), `self.nodes` has an entry keyed by the browse name of every
subscribable (Property or Variable) child, and exactly one data-change
subscription was added, monitoring exactly the subscribable children, each
covered exactly once. -/
theorem init_index_covers_subscribables (sid : Nat) (srv : ServerState)
    (n : UANode)
    (hfresh : ∀ sb ∈ srv.subs, sb.handle ≠ srv.nextHandle)
    (hnd : (n.children.map ChildNode.nodeId).Nodup) :
    (∀ c ∈ n.get_properties ++ n.get_variables,
        (dictLookup (UaObject.init sid srv n).1.nodes c.get_browse_name.Name).isSome)
    ∧ ((UaObject.init sid srv n).2).subs
        = srv.subs ++ [(⟨srv.nextHandle, 500,
            (n.get_properties ++ n.get_variables).map ChildNode.nodeId⟩ : Subscription)]
    ∧ (∀ c ∈ n.get_properties ++ n.get_variables,
        ((n.get_properties ++ n.get_variables).map ChildNode.nodeId).count c.nodeId
          = 1) := by
  refine ⟨?_, init_subs_eq sid srv n hfresh, ?_⟩
  · intro c hc
    have hcin : c ∈ n.children := by
      rcases List.mem_append.mp hc with h | h
      · exact (List.mem_filter.mp h).1
      · exact (List.mem_filter.mp h).1
    show (dictLookup (buildNodes n.get_children) c.get_browse_name.Name).isSome
    rw [dictLookup_buildNodes]
    have hmem : c ∈ n.get_children.filter
        (fun x => x.get_browse_name.Name = c.get_browse_name.Name) :=
      List.mem_filter.mpr ⟨hcin, by simp⟩
    cases hf : n.get_children.filter
        (fun x => decide (x.get_browse_name.Name = c.get_browse_name.Name)) with
    | nil => rw [hf] at hmem; cases hmem
    | cons x xs => exact lastO_cons_isSome x xs
  · intro c hc
    have hsub : ((n.get_properties ++ n.get_variables).map ChildNode.nodeId).Nodup := by
      rw [List.map_append]
      have hp : (n.get_properties.map ChildNode.nodeId).Nodup :=
        hnd.sublist ((List.filter_sublist n.children).map ChildNode.nodeId)
      have hv : (n.get_variables.map ChildNode.nodeId).Nodup :=
        hnd.sublist ((List.filter_sublist n.children).map ChildNode.nodeId)
      refine List.Nodup.append hp hv ?_
      intro a ha hb
      obtain ⟨c1, hc1, hid1⟩ := List.mem_map.mp ha
      obtain ⟨c2, hc2, hid2⟩ := List.mem_map.mp hb
      have hm1 := List.mem_filter.mp hc1
      have hm2 := List.mem_filter.mp hc2
      have h12 : c1 = c2 :=
        List.inj_on_of_nodup_map hnd hm1.1 hm2.1 (hid1.trans hid2.symm)
      have e1 : c1.nodeClass = NodeClass.Property := of_decide_eq_true hm1.2
      have e2 : c2.nodeClass = NodeClass.Variable := of_decide_eq_true hm2.2
      rw [h12] at e1
      rw [e1] at e2
      exact NodeClass.noConfusion e2
    exact List.count_eq_one_of_mem hsub (List.mem_map_of_mem ChildNode.nodeId hc)

/-- An Object-class node with a Variable child, a Property child and an
Object child, for the constructor-coverage scenario. -/
def spectrumNode : UANode := ⟨40, ⟨2, "Spectrum"⟩, NodeClass.Object,
  [⟨41, ⟨2, "Intensity"⟩, NodeClass.Variable⟩,
   ⟨42, ⟨2, "Units"⟩, NodeClass.Property⟩,
   ⟨43, ⟨2, "Sub"⟩, NodeClass.Object⟩]⟩

theorem init_index_covers_subscribables_witness :
    ((UaObject.init 0 emptyServer spectrumNode).2).subs
      = emptyServer.subs ++ [(⟨emptyServer.nextHandle, 500,
          (spectrumNode.get_properties ++ spectrumNode.get_variables).map
            ChildNode.nodeId⟩ : Subscription)] :=
  (init_index_covers_subscribables 0 emptyServer spectrumNode
    (by decide) (by decide)).2.1

/-! ## Notification sequences (delivery order) -/

/-- One delivered data-change notification: the arguments the protocol layer
passes to `datachange_notification`. -/
structure NotifEvent : Type where
  node : ChildNode
  val : UAVal
  data : DataChangeEventData
deriving DecidableEq

/-- Deliver a sequence of notifications to the handler, in order, starting
from the object's attribute store. -/
def applyNotifications (attrs : Attrs) (evs : List NotifEvent) : Attrs :=
  evs.foldl
    (fun a e => SubHandler.datachange_notification a e.node e.val e.data) attrs

/-- The metadata values delivered for the field named `f`, in delivery
order. -/
def notifValuesFor (f : String) (evs : List NotifEvent) : List UAVal :=
  (evs.filter (fun e => e.node.get_browse_name.Name = f)).map
    (fun e => e.data.monitored_item.Value.Value.Value)

theorem lookup_applyNotifications (f : String) (evs : List NotifEvent)
    (attrs : Attrs) :
    dictLookup (applyNotifications attrs evs) f
      = orElseO (lastO (notifValuesFor f evs)) (dictLookup attrs f) := by
  induction evs generalizing attrs with
  | nil => rfl
  | cons e rest ih =>
      rw [show applyNotifications attrs (e :: rest)
          = applyNotifications
              (SubHandler.datachange_notification attrs e.node e.val e.data) rest
          from rfl, ih]
      by_cases h : e.node.get_browse_name.Name = f
      · have hv : notifValuesFor f (e :: rest)
            = e.data.monitored_item.Value.Value.Value :: notifValuesFor f rest := by
          simp [notifValuesFor, List.filter_cons, h]
        rw [hv]
        cases hr : notifValuesFor f rest with
        | nil =>
            show orElseO (lastO [])
                (dictLookup (dictInsert attrs e.node.get_browse_name.Name
                  e.data.monitored_item.Value.Value.Value) f)
              = orElseO (lastO [e.data.monitored_item.Value.Value.Value])
                  (dictLookup attrs f)
            rw [h]
            simp [orElseO, lastO, dictLookup_dictInsert_self]
        | cons x xs =>
            rw [lastO_cons_cons]
            obtain ⟨g, hg⟩ := Option.isSome_iff_exists.mp (lastO_cons_isSome x xs)
            rw [hg]
            rfl
      · have hv : notifValuesFor f (e :: rest) = notifValuesFor f rest := by
          simp [notifValuesFor, List.filter_cons, h]
        rw [hv, show dictLookup
            (SubHandler.datachange_notification attrs e.node e.val e.data) f
            = dictLookup attrs f
          from dictLookup_dictInsert_ne _ _ _ _ (fun hf => h hf.symm)]

/-- C7: for a sequence of notifications delivered in order, the final value
of the field named `f` is the metadata value of the LAST notification
delivered for that field (last-write-wins), whatever notifications for other
fields are interleaved and whatever the store held before. -/
theorem last_notification_wins (attrs : Attrs) (evs : List NotifEvent)
    (f : String) (h : notifValuesFor f evs ≠ []) :
    dictLookup (applyNotifications attrs evs) f = lastO (notifValuesFor f evs) := by
  rw [lookup_applyNotifications]
  cases hv : notifValuesFor f evs with
  | nil => exact absurd hv h
  | cons x xs =>
      obtain ⟨g, hg⟩ := Option.isSome_iff_exists.mp (lastO_cons_isSome x xs)
      rw [hg]
      rfl

/-- Three notifications: "Intensity" ← 1, then "Timestamp" ← 9 (unrelated
field, interleaved), then "Intensity" ← 2.  The `val` arguments deliberately
disagree with the metadata values. -/
def notifSeq : List NotifEvent :=
  [⟨⟨41, ⟨2, "Intensity"⟩, NodeClass.Variable⟩, UAVal.intVal 100, ⟨⟨⟨⟨UAVal.intVal 1⟩, 10⟩⟩⟩⟩,
   ⟨⟨44, ⟨2, "Timestamp"⟩, NodeClass.Variable⟩, UAVal.intVal 101, ⟨⟨⟨⟨UAVal.intVal 9⟩, 11⟩⟩⟩⟩,
   ⟨⟨41, ⟨2, "Intensity"⟩, NodeClass.Variable⟩, UAVal.intVal 102, ⟨⟨⟨⟨UAVal.intVal 2⟩, 12⟩⟩⟩⟩]

theorem last_notification_wins_witness :
    dictLookup (applyNotifications [] notifSeq) "Intensity" = some (UAVal.intVal 2) :=
  (last_notification_wins [] notifSeq "Intensity" (by decide)).trans (by decide)

end OpcUaSim
